import Mathlib

/-!
Lifecycle orchestration of package `quantum` (`interface.go`).

A shallow embedding of `Listen` and `Shutdown` from package `quantum`.

* The option loop and the two defaulting rules of `Listen` are pure functions
  on `Options`.
* The process-wide variables (`running`, `app`, `env.Wd`, `env.Die`,
  `runtime.CurrentNode`) form a `State`; calls into collaborators and writes
  to the globals are additionally recorded, in program order, in `State.trace`.
* `Listen` blocks in a `select`.  The part of its body before the `select`
  is `ListenEnter`, the part from the `select` to the return is `ListenWake`.
  Calls issued by other goroutines while a run is blocked are interleaved
  through `step`, in which `ListenEnter`, `ListenWake` and `Shutdown` are each
  one step.
* What the operating system and the collaborators answer (`os.Getwd`,
  `time.Now`, `node.Startup`, ...) is an input of the call, `ListenEnv`.  A
  panic and `log.Fatalf` end the process.
* `running` is an `int32`; `atomic.AddInt32` wraps, which `wrapInt32` makes
  explicit.
-/

namespace Quantum

/-! ## Data model -/

/-- Go `time.Duration`: a signed count of nanoseconds. -/
abbrev Duration := Int

/-- Go `time.Second`. -/
def Second : Duration := 1000000000

/-- Modelled from the spec: `component.Components` is declared outside
`interface.go`; the spec calls it an opaque registry handle.  The registry is
represented by the names it holds; `&component.Components{}` is the empty one. -/
structure Components where
  names : List String
deriving DecidableEq, Repr

/-- Modelled from the spec: `cluster.Options` is declared outside
`interface.go`.  These are the fields `Listen` reads or writes, with the types
the Data Model section of the spec gives them. -/
structure Options where
  IsMaster : Bool
  AdvertiseAddr : String
  ClientAddr : String
  RetryInterval : Duration
  Components : Components
deriving DecidableEq, Repr

/-- Go type `Option` (`func(*cluster.Options)`), named `OptionFunc` here because
`Option` is taken.  A mutator updates the options it is handed in place. -/
abbrev OptionFunc := Options → Options

/-- Modelled from the spec: `cluster.Node` is declared outside `interface.go`;
`Listen` builds it from the embedded `Options` and `ServiceAddr`. -/
structure Node where
  Options : Options
  ServiceAddr : String
deriving DecidableEq, Repr

/-! ### Option constructors

The constructors of `Option` values live in a file that is not part of the
sources at hand; the External Interfaces table of the spec lists their
effects. -/

/-- Modelled from the spec: option constructor "mark as cluster coordinator",
sets `isMaster = true`. -/
def setIsMaster : OptionFunc := fun o => { o with IsMaster := true }

/-- Modelled from the spec: option constructor "set advertise address". -/
def setAdvertiseAddr (a : String) : OptionFunc := fun o => { o with AdvertiseAddr := a }

/-- Modelled from the spec: option constructor "set client address". -/
def setClientAddr (a : String) : OptionFunc := fun o => { o with ClientAddr := a }

/-- Modelled from the spec: option constructor "set retry interval". -/
def setRetryInterval (d : Duration) : OptionFunc := fun o => { o with RetryInterval := d }

/-- Modelled from the spec: option constructor "attach component registry". -/
def setComponents (c : Components) : OptionFunc := fun o => { o with Components := c }

/-! ## Configuration resolution (`Listen`, the statements between the
environment set-up and `node.Startup()`) -/

/-- Statement `opt := cluster.Options{Components: &component.Components{}}`: every other
field holds its Go zero value. -/
def baseOptions : Options :=
  { IsMaster := false
    AdvertiseAddr := ""
    ClientAddr := ""
    RetryInterval := 0
    Components := { names := [] } }

/-- Loop `for _, option := range opts { option(&opt) }`. -/
def applyOptions : List OptionFunc → Options → Options
  | [], opt => opt
  | option :: rest, opt => applyOptions rest (option opt)

/-- Condition of the singleton-mode rule:
`!opt.IsMaster && opt.AdvertiseAddr == "" && opt.ClientAddr == ""`. -/
def singletonMode (opt : Options) : Bool :=
  !opt.IsMaster && opt.AdvertiseAddr == "" && opt.ClientAddr == ""

/-- The singleton-mode rule: when its condition holds, `opt.ClientAddr = addr`. -/
def inferClientAddr (addr : String) (opt : Options) : Options :=
  if singletonMode opt then { opt with ClientAddr := addr } else opt

/-- The retry rule:
`if opt.RetryInterval == 0 { opt.RetryInterval = time.Second * 3 }`. -/
def defaultRetryInterval (opt : Options) : Options :=
  if opt.RetryInterval == 0 then { opt with RetryInterval := Second * 3 } else opt

/-- The options after the loop and both rules, in the order `Listen` runs them. -/
def resolveOptions (addr : String) (opts : List OptionFunc) : Options :=
  defaultRetryInterval (inferClientAddr addr (applyOptions opts baseOptions))

/-- Statement `node := &cluster.Node{Options: opt, ServiceAddr: addr}`. -/
def listenNode (addr : String) (opts : List OptionFunc) : Node :=
  { Options := resolveOptions addr opts, ServiceAddr := addr }

/-! ## Process state -/

/-- Go `int32` arithmetic: the value of `x` after wrapping to 32 bits, two's
complement.  `atomic.AddInt32` returns `wrapInt32 (old + delta)`. -/
def wrapInt32 (x : Int) : Int := (x + 2147483648) % 4294967296 - 2147483648

/-- The signals named in `signal.Notify(sg, ...)`. -/
inductive Signal where
  | SIGINT
  | SIGQUIT
  | SIGKILL
  | SIGTERM
deriving DecidableEq, Repr

/-- One operand of a logging call. -/
inductive LogArg where
  | str (text : String)
  | sprintf (format : String) (args : List String)
  | sig (s : Signal)
deriving DecidableEq, Repr

/-- What one statement of `Listen` or `Shutdown` does to the world outside its
local variables, recorded in program order. -/
inductive Effect where
  /-- Call `log.Println(args...)`. -/
  | println (args : List LogArg)
  /-- Call `log.Fatalf(format, err)`. -/
  | fatalf (format : String) (err : String)
  /-- Call `node.Startup()`. -/
  | nodeStartup (node : Node)
  /-- Assignment `runtime.CurrentNode = ...`. -/
  | setCurrentNode (node : Option Node)
  /-- Statement `go scheduler.Sched()`. -/
  | goSched
  /-- Call `signal.Notify(sg, sigs...)`. -/
  | signalNotify (sigs : List Signal)
  /-- Call `node.Shutdown()`. -/
  | nodeShutdown (node : Node)
  /-- Call `scheduler.Close()`. -/
  | schedulerClose
  /-- Call `atomic.StoreInt32(&running, v)`. -/
  | storeRunning (v : Int)
  /-- Call `close(env.Die)`. -/
  | closeDie
deriving DecidableEq, Repr

/-- The package variable `app`. -/
structure App where
  name : String
  startAt : Nat
deriving DecidableEq, Repr

/-- State of a Go channel that is only ever closed, never sent on. -/
inductive Chan where
  | active
  | closed
deriving DecidableEq, Repr

/-- How a call ends, other than by returning normally. -/
inductive Abort where
  /-- A Go panic with the given value. -/
  | panicked (value : String)
  /-- Exit through `log.Fatalf`. -/
  | fatal (err : String)
deriving DecidableEq, Repr

/-- The process-wide variables `Listen` and `Shutdown` touch, the runs
currently blocked in the `select` of `Listen` (each with its local `node`),
and the effects performed so far. -/
structure State where
  /-- Package variable `running`, an `int32`. -/
  running : Int
  /-- Package variable `app`. -/
  app : App
  /-- Variable `env.Wd`. -/
  envWd : String
  /-- Variable `env.Die`. -/
  envDie : Chan
  /-- Variable `runtime.CurrentNode`. -/
  currentNode : Option Node
  /-- Calls of `Listen` blocked in `select`, oldest first. -/
  runs : List Node
  trace : List Effect
deriving DecidableEq, Repr

/-- Modelled from the spec: `env.Die` and `env.Wd` are declared outside
`interface.go`; the spec describes `env.Die` as an internally owned one-shot
channel, so it starts out as a channel nobody has closed.  Everything else is
the Go zero value of the variable. -/
def init : State :=
  { running := 0
    app := { name := "", startAt := 0 }
    envWd := ""
    envDie := Chan.active
    currentNode := none
    runs := []
    trace := [] }

/-- What the environment answers to one call of `Listen`. -/
structure ListenEnv where
  /-- Value of `strings.TrimLeft(filepath.Base(os.Args[0]), "/")`. -/
  appName : String
  /-- Value of `time.Now()`. -/
  now : Nat
  /-- Result of `os.Getwd()`. -/
  getwd : Except String String
  /-- First result of `filepath.Abs`. -/
  abs : String → String
  /-- Error returned by `node.Startup()`, `none` for `nil`. -/
  startup : Option String

/-- How the part of `Listen` before the `select` ends. -/
inductive Outcome where
  /-- The guard was taken: `Listen` returned after logging. -/
  | returned
  /-- The call is blocked in `select`. -/
  | waiting
  /-- The process was terminated. -/
  | aborted (a : Abort)
deriving DecidableEq, Repr

/-- Which case of the `select` fired. -/
inductive Reason where
  /-- Case `<-env.Die`. -/
  | die
  /-- Case `s := <-sg`. -/
  | signal (s : Signal)
deriving DecidableEq, Repr

/-! ## `Listen` and `Shutdown` -/

/-- The start-up line `Listen` logs once the node is up. -/
def startupLine (appName : String) (node : Node) : LogArg :=
  if node.Options.ClientAddr != "" then
    LogArg.sprintf "Startup *Quantum gate server* %s, client address: %v, service address: %s"
      [appName, node.Options.ClientAddr, node.ServiceAddr]
  else
    LogArg.sprintf "Startup *Quantum backend server* %s, service address %s"
      [appName, node.ServiceAddr]

/-- The signals handed to `signal.Notify`. -/
def monitored : List Signal := [Signal.SIGINT, Signal.SIGQUIT, Signal.SIGKILL, Signal.SIGTERM]

/-- The line `Listen` logs when it finds the guard taken. -/
def rejectLine : Effect := Effect.println [LogArg.str "Quantum has running"]

/-- Body of `Listen` from its first statement up to the point where it blocks in
`select`.  A run that reaches the `select` is appended to `runs`. -/
def ListenEnter (addr : String) (opts : List OptionFunc) (e : ListenEnv) (s : State) :
    Outcome × State :=
  let n := wrapInt32 (s.running + 1)
  let s1 := { s with running := n }
  if n != 1 then
    (Outcome.returned,
      { s1 with trace := s1.trace ++ [rejectLine] })
  else
    let s2 := { s1 with app := { name := e.appName, startAt := e.now } }
    match e.getwd with
    | Except.error err => (Outcome.aborted (Abort.panicked err), s2)
    | Except.ok wd =>
      let s3 := { s2 with envWd := e.abs wd }
      let opt := applyOptions opts baseOptions
      let s4 :=
        if singletonMode opt then
          { s3 with trace := s3.trace ++
              [Effect.println [LogArg.str "The current server running in singleton mode"]] }
        else s3
      let opt1 := inferClientAddr addr opt
      let opt2 := defaultRetryInterval opt1
      let node : Node := { Options := opt2, ServiceAddr := addr }
      let s5 := { s4 with trace := s4.trace ++ [Effect.nodeStartup node] }
      match e.startup with
      | some err =>
        (Outcome.aborted (Abort.fatal err),
          { s5 with trace := s5.trace ++ [Effect.fatalf "Node startup failed: %v" err] })
      | none =>
        (Outcome.waiting,
          { s5 with
            currentNode := some node
            runs := s5.runs ++ [node]
            trace := s5.trace ++
              [Effect.setCurrentNode (some node),
               Effect.println [startupLine s5.app.name node],
               Effect.goSched,
               Effect.signalNotify monitored] })

/-- The line logged by the `select` case that fired. -/
def reasonLine : Reason → Effect
  | Reason.die => Effect.println [LogArg.str "The app will shutdown in a few seconds"]
  | Reason.signal sg => Effect.println [LogArg.str "Quantum server got signal", LogArg.sig sg]

/-- The statements of `Listen` after the `select`, for the run whose local
variable is `node`. -/
def teardownEffects (node : Node) : List Effect :=
  [Effect.println [LogArg.str "Quantum server is stopping..."],
   Effect.nodeShutdown node,
   Effect.setCurrentNode none,
   Effect.schedulerClose,
   Effect.storeRunning 0]

/-- Body of `Listen` from the `select` to the return, for the blocked run number
`i`, when the case `r` fires.  `none` when there is no such run. -/
def ListenWake (i : Nat) (r : Reason) (s : State) : Option State :=
  match s.runs[i]? with
  | none => none
  | some node =>
    some { s with
      running := 0
      currentNode := none
      runs := s.runs.eraseIdx i
      trace := s.trace ++ reasonLine r :: teardownEffects node }

/-- Go built-in `close` on a channel: closing a closed channel panics. -/
def chanClose : Chan → Except Abort Chan
  | Chan.active => Except.ok Chan.closed
  | Chan.closed => Except.error (Abort.panicked "close of closed channel")

/-- Function `Shutdown`, whose body is `close(env.Die)`. -/
def Shutdown (s : State) : Except Abort State :=
  match chanClose s.envDie with
  | Except.ok c => Except.ok { s with envDie := c, trace := s.trace ++ [Effect.closeDie] }
  | Except.error a => Except.error a

/-! ## Interleaving -/

/-- What can happen next in the process, as far as `Listen` and `Shutdown` are
concerned. -/
inductive Event where
  /-- Some goroutine calls `Listen` and runs it up to its return or its `select`. -/
  | listen (addr : String) (opts : List OptionFunc) (e : ListenEnv)
  /-- The `select` of blocked run `i` fires on case `r` and the run finishes. -/
  | wake (i : Nat) (r : Reason)
  /-- Some goroutine calls `Shutdown`. -/
  | shutdown

/-- One event.  `none` when the event cannot happen in `s` (no such blocked run,
or `case <-env.Die` while `env.Die` is not closed) or when it terminates the
process.  `SIGKILL` is named in `signal.Notify` but cannot be caught: the
kernel ends the process and nothing is ever received from `sg`, so the `select`
does not fire on it and no statement after the `select` runs. -/
def step (s : State) : Event → Option State
  | Event.listen addr opts e =>
    match ListenEnter addr opts e s with
    | (Outcome.aborted _, _) => none
    | (_, s1) => some s1
  | Event.wake i Reason.die =>
    if s.envDie = Chan.closed then ListenWake i Reason.die s else none
  | Event.wake i (Reason.signal sg) =>
    if sg = Signal.SIGKILL then none else ListenWake i (Reason.signal sg) s
  | Event.shutdown =>
    match Shutdown s with
    | Except.ok s1 => some s1
    | Except.error _ => none

/-- A sequence of events, from left to right. -/
def run : State → List Event → Option State
  | s, [] => some s
  | s, ev :: rest =>
    match step s ev with
    | none => none
    | some s1 => run s1 rest

/-- States the process can be in. -/
def Reachable (s : State) : Prop := ∃ evs : List Event, run init evs = some s

/-- A second environment in which nothing fails, with another executable name
and a later clock. -/
def otherEnv : ListenEnv :=
  { appName := "other"
    now := 2
    getwd := Except.ok "/srv"
    abs := fun wd => wd
    startup := none }

/-- The guard invariant: the counter is an `int32`, and it is 0 whenever no run
is blocked in `select`. -/
def GuardInv (s : State) : Prop :=
  -2147483648 ≤ s.running ∧ s.running < 2147483648 ∧ (s.runs = [] → s.running = 0)

/-- An environment in which nothing fails. -/
def okEnv : ListenEnv :=
  { appName := "quantum"
    now := 1
    getwd := Except.ok "/srv"
    abs := fun wd => wd
    startup := none }

/-- Whether an effect is a logging call. -/
def Effect.isLog : Effect → Bool
  | Effect.println _ => true
  | Effect.fatalf _ _ => true
  | _ => false

/-- Three seconds, the value `time.Second * 3`. -/
def threeSeconds : Duration := Second * 3

end Quantum


namespace Quantum

/-! ## Configuration resolution: lemmas -/

theorem applyOptions_eq_foldl (opts : List OptionFunc) (opt : Options) :
    applyOptions opts opt = List.foldl (fun o option => option o) opt opts := by
  induction opts generalizing opt with
  | nil => rfl
  | cons option rest ih => simp [applyOptions, ih]

theorem applyOptions_append (pre post : List OptionFunc) (opt : Options) :
    applyOptions (pre ++ post) opt = applyOptions post (applyOptions pre opt) := by
  induction pre generalizing opt with
  | nil => rfl
  | cons option rest ih => simp [applyOptions, ih]

/-- A field no mutator of the list changes comes out of the loop as it went in. -/
theorem applyOptions_preserves {α : Type} (field : Options → α) (opts : List OptionFunc)
    (h : ∀ m ∈ opts, ∀ o, field (m o) = field o) (opt : Options) :
    field (applyOptions opts opt) = field opt := by
  induction opts generalizing opt with
  | nil => rfl
  | cons option rest ih =>
    have h1 : field (option opt) = field opt := h option (List.mem_cons_self _ _) opt
    have h2 : ∀ m ∈ rest, ∀ o, field (m o) = field o :=
      fun m hm o => h m (List.mem_cons_of_mem _ hm) o
    simp only [applyOptions]
    rw [ih h2, h1]

/-- The field written by the last mutator that touches it is what the loop
leaves behind. -/
theorem applyOptions_last_write {α : Type} (field : Options → α) (pre post : List OptionFunc)
    (m : OptionFunc) (v : α) (hm : ∀ o, field (m o) = v)
    (hpost : ∀ m1 ∈ post, ∀ o, field (m1 o) = field o) (opt : Options) :
    field (applyOptions (pre ++ m :: post) opt) = v := by
  rw [applyOptions_append]
  simp only [applyOptions]
  rw [applyOptions_preserves field post hpost, hm]

theorem singletonMode_iff (opt : Options) :
    singletonMode opt = true ↔
      (opt.IsMaster = false ∧ opt.AdvertiseAddr = "" ∧ opt.ClientAddr = "") := by
  cases h : opt.IsMaster <;> simp [singletonMode, h]

theorem inferClientAddr_clientAddr (addr : String) (opt : Options) :
    (inferClientAddr addr opt).ClientAddr =
      if opt.IsMaster = false ∧ opt.AdvertiseAddr = "" ∧ opt.ClientAddr = "" then addr
      else opt.ClientAddr := by
  unfold inferClientAddr
  by_cases h : opt.IsMaster = false ∧ opt.AdvertiseAddr = "" ∧ opt.ClientAddr = ""
  · rw [if_pos h, if_pos ((singletonMode_iff opt).2 h)]
  · rw [if_neg h, if_neg (fun hs => h ((singletonMode_iff opt).1 hs))]

theorem defaultRetryInterval_clientAddr (opt : Options) :
    (defaultRetryInterval opt).ClientAddr = opt.ClientAddr := by
  unfold defaultRetryInterval
  split <;> rfl

theorem defaultRetryInterval_retryInterval (opt : Options) :
    (defaultRetryInterval opt).RetryInterval =
      if opt.RetryInterval = 0 then threeSeconds else opt.RetryInterval := by
  unfold defaultRetryInterval
  by_cases h : opt.RetryInterval = 0
  · simp [h, threeSeconds]
  · simp [h]

theorem inferClientAddr_retryInterval (addr : String) (opt : Options) :
    (inferClientAddr addr opt).RetryInterval = opt.RetryInterval := by
  unfold inferClientAddr
  split <;> rfl

theorem listenNode_retryInterval (addr : String) (opts : List OptionFunc) :
    (listenNode addr opts).Options.RetryInterval =
      if (applyOptions opts baseOptions).RetryInterval = 0 then threeSeconds
      else (applyOptions opts baseOptions).RetryInterval := by
  simp only [listenNode, resolveOptions]
  rw [defaultRetryInterval_retryInterval, inferClientAddr_retryInterval]

end Quantum

namespace Quantum

/-! ## `Listen` up to the `select`: lemmas -/

theorem ListenEnter_rejected (addr : String) (opts : List OptionFunc) (e : ListenEnv)
    (s : State) (h : wrapInt32 (s.running + 1) ≠ 1) :
    ListenEnter addr opts e s =
      (Outcome.returned,
        { s with running := wrapInt32 (s.running + 1), trace := s.trace ++ [rejectLine] }) := by
  simp [ListenEnter, h]

theorem ListenEnter_started (addr : String) (opts : List OptionFunc) (e : ListenEnv)
    (s : State) (wd : String) (h : wrapInt32 (s.running + 1) = 1)
    (hwd : e.getwd = Except.ok wd) (hst : e.startup = none) :
    ListenEnter addr opts e s =
      (Outcome.waiting,
        { running := 1
          app := { name := e.appName, startAt := e.now }
          envWd := e.abs wd
          envDie := s.envDie
          currentNode := some (listenNode addr opts)
          runs := s.runs ++ [listenNode addr opts]
          trace := s.trace ++
            ((if singletonMode (applyOptions opts baseOptions) then
                [Effect.println [LogArg.str "The current server running in singleton mode"]]
              else []) ++
             [Effect.nodeStartup (listenNode addr opts),
              Effect.setCurrentNode (some (listenNode addr opts)),
              Effect.println [startupLine e.appName (listenNode addr opts)],
              Effect.goSched,
              Effect.signalNotify monitored]) }) := by
  simp only [ListenEnter, h, hwd, hst]
  by_cases hs : singletonMode (applyOptions opts baseOptions) = true
  · simp [hs, listenNode, resolveOptions]
  · simp [hs, listenNode, resolveOptions]

/-- A call of `Listen` that gets past the guard and resolves its working
directory calls `Startup` on the node built from its arguments. -/
theorem listen_startup_mem (addr : String) (opts : List OptionFunc) (e : ListenEnv)
    (s : State) (wd : String) (hrun : wrapInt32 (s.running + 1) = 1)
    (hwd : e.getwd = Except.ok wd) :
    Effect.nodeStartup (listenNode addr opts) ∈ (ListenEnter addr opts e s).2.trace := by
  cases hst : e.startup with
  | none =>
    rw [ListenEnter_started addr opts e s wd hrun hwd hst]
    simp
  | some err =>
    simp only [ListenEnter, hrun, hwd, hst]
    by_cases hs : singletonMode (applyOptions opts baseOptions) = true
    · simp [hs, listenNode, resolveOptions]
    · simp [hs, listenNode, resolveOptions]

theorem wrapInt32_succ_eq_one_iff (c : Int) (hlo : -2147483648 ≤ c) (hhi : c < 2147483648) :
    wrapInt32 (c + 1) = 1 ↔ c = 0 := by
  unfold wrapInt32
  omega

end Quantum

namespace Quantum

/-! ## Configuration resolution: the contract -/

/-- C1: with `o` the options after all mutators have run, the node `Listen`
builds has `ClientAddr = addr` when `o.IsMaster = false`, `o.AdvertiseAddr = ""`
and `o.ClientAddr = ""`, and `ClientAddr = o.ClientAddr` in every other case, in
particular whenever `o.IsMaster = true`; its `ServiceAddr` is `addr` either way.
This node is the one `Listen` calls `Startup` on. -/
theorem listen_clientAddr (addr : String) (opts : List OptionFunc) :
    ((applyOptions opts baseOptions).IsMaster = false ∧
        (applyOptions opts baseOptions).AdvertiseAddr = "" ∧
        (applyOptions opts baseOptions).ClientAddr = "" →
      (listenNode addr opts).Options.ClientAddr = addr) ∧
    (¬ ((applyOptions opts baseOptions).IsMaster = false ∧
        (applyOptions opts baseOptions).AdvertiseAddr = "" ∧
        (applyOptions opts baseOptions).ClientAddr = "") →
      (listenNode addr opts).Options.ClientAddr = (applyOptions opts baseOptions).ClientAddr) ∧
    ((applyOptions opts baseOptions).IsMaster = true →
      (listenNode addr opts).Options.ClientAddr = (applyOptions opts baseOptions).ClientAddr) ∧
    (listenNode addr opts).ServiceAddr = addr ∧
    (∀ (e : ListenEnv) (s : State) (wd : String),
      wrapInt32 (s.running + 1) = 1 → e.getwd = Except.ok wd →
      Effect.nodeStartup (listenNode addr opts) ∈ (ListenEnter addr opts e s).2.trace) := by
  have hc : (listenNode addr opts).Options.ClientAddr =
      if (applyOptions opts baseOptions).IsMaster = false ∧
          (applyOptions opts baseOptions).AdvertiseAddr = "" ∧
          (applyOptions opts baseOptions).ClientAddr = "" then addr
      else (applyOptions opts baseOptions).ClientAddr := by
    simp only [listenNode, resolveOptions]
    rw [defaultRetryInterval_clientAddr, inferClientAddr_clientAddr]
  refine ⟨fun h => ?_, fun h => ?_, fun h => ?_, rfl, ?_⟩
  · rw [hc, if_pos h]
  · rw [hc, if_neg h]
  · rw [hc, if_neg]
    intro h1
    rw [h] at h1
    exact Bool.noConfusion h1.1
  · intro e s wd hrun hwd
    exact listen_startup_mem addr opts e s wd hrun hwd

/-- C1, at an input: a singleton-mode call, a master-mode call and a call with a
client address set. -/
theorem listen_clientAddr_witness :
    (listenNode "a:1" []).Options.ClientAddr = "a:1" ∧
    (listenNode "a:1" [setClientAddr "c:2"]).Options.ClientAddr = "c:2" ∧
    (listenNode "a:1" [setIsMaster]).Options.ClientAddr = "" ∧
    Effect.nodeStartup (listenNode "a:1" []) ∈ (ListenEnter "a:1" [] okEnv init).2.trace :=
  ⟨(listen_clientAddr "a:1" []).1 (by decide),
   (listen_clientAddr "a:1" [setClientAddr "c:2"]).2.1 (by decide),
   (listen_clientAddr "a:1" [setIsMaster]).2.2.1 (by decide),
   (listen_clientAddr "a:1" []).2.2.2.2 okEnv init "/srv" (by decide) rfl⟩

/-- C2 as stated fails: a mutator that sets the retry interval to 0 does not get
0 handed to the node, but three seconds. -/
theorem retryInterval_zero_not_preserved :
    (listenNode "a:1" [setRetryInterval 0]).Options.RetryInterval = 3000000000 ∧
    (listenNode "a:1" [setRetryInterval 0]).Options.RetryInterval ≠ 0 := by
  constructor <;> decide

/-- C2, amended: the retry interval handed to the node is three seconds when the
mutators leave it at 0, which is the case when none of them sets it and
when the last one to set it sets 0, and is the value `d` set by the last mutator
that sets it for every `d` other than 0. -/
theorem listen_retryInterval (addr : String) (opts pre post : List OptionFunc)
    (m : OptionFunc) (d : Duration)
    (hnone : ∀ m1 ∈ opts, ∀ o, (m1 o).RetryInterval = o.RetryInterval)
    (hm : ∀ o, (m o).RetryInterval = d)
    (hpost : ∀ m1 ∈ post, ∀ o, (m1 o).RetryInterval = o.RetryInterval) :
    (listenNode addr opts).Options.RetryInterval = 3 * Second ∧
    (d ≠ 0 → (listenNode addr (pre ++ m :: post)).Options.RetryInterval = d) ∧
    (d = 0 → (listenNode addr (pre ++ m :: post)).Options.RetryInterval = 3 * Second) := by
  have h3 : threeSeconds = 3 * Second := by decide
  have hset : (applyOptions (pre ++ m :: post) baseOptions).RetryInterval = d :=
    applyOptions_last_write (fun o => o.RetryInterval) pre post m d hm hpost baseOptions
  have hbase : (applyOptions opts baseOptions).RetryInterval = 0 :=
    applyOptions_preserves (fun o => o.RetryInterval) opts hnone baseOptions
  refine ⟨?_, fun hd => ?_, fun hd => ?_⟩
  · rw [listenNode_retryInterval, hbase, if_pos rfl, h3]
  · rw [listenNode_retryInterval, hset, if_neg hd]
  · rw [listenNode_retryInterval, hset, if_pos hd, h3]

/-- C2, amended, at an input: a call without a retry option, and a call with a
retry option of 5 seconds between two other options. -/
theorem listen_retryInterval_witness :
    (listenNode "a:1" [setIsMaster]).Options.RetryInterval = 3 * Second ∧
    (listenNode "a:1" ([setIsMaster] ++ setRetryInterval 5000000000 :: [setClientAddr "c:2"])
      ).Options.RetryInterval = 5000000000 :=
  have h := listen_retryInterval "a:1" [setIsMaster] [setIsMaster] [setClientAddr "c:2"]
    (setRetryInterval 5000000000) 5000000000
    (by intro m hm o; simp at hm; subst hm; rfl)
    (fun _ => rfl)
    (by intro m hm o; simp at hm; subst hm; rfl)
  ⟨h.1, h.2.1 (by decide)⟩

/-- C3 as stated fails: in the list of three client-address options "x", "y",
"z" the first two set the same field and the later of the two writes "y", yet
the value present after the fold is "z", written by the third. -/
theorem later_write_overwritten :
    applyOptions [setClientAddr "x", setClientAddr "y", setClientAddr "z"] baseOptions =
      List.foldl (fun o option => option o) baseOptions
        [setClientAddr "x", setClientAddr "y", setClientAddr "z"] ∧
    (∀ o, (setClientAddr "x" o).ClientAddr = "x") ∧
    (∀ o, (setClientAddr "y" o).ClientAddr = "y") ∧
    (applyOptions [setClientAddr "x", setClientAddr "y", setClientAddr "z"]
      baseOptions).ClientAddr = "z" ∧
    (applyOptions [setClientAddr "x", setClientAddr "y", setClientAddr "z"]
      baseOptions).ClientAddr ≠ "y" ∧
    ¬ (∀ (opts pre mid post : List OptionFunc) (earlier later : OptionFunc) (v w : String),
        opts = pre ++ earlier :: (mid ++ later :: post) →
        (∀ o, (earlier o).ClientAddr = v) → (∀ o, (later o).ClientAddr = w) →
        (applyOptions opts baseOptions).ClientAddr = w) := by
  refine ⟨rfl, fun _ => rfl, fun _ => rfl, by decide, by decide, ?_⟩
  intro hall
  have hy := hall [setClientAddr "x", setClientAddr "y", setClientAddr "z"] [] []
    [setClientAddr "z"] (setClientAddr "x") (setClientAddr "y") "x" "y" rfl
    (fun _ => rfl) (fun _ => rfl)
  exact absurd hy (by decide)

/-- C3, amended: the options `Listen` derives its defaults from are the left fold
of the mutators, in the order given, over the base options, in which only
`Components` is set, to an empty registry; each mutator is applied once, to the
result of those before it; and of two mutators that set the same field, when no
mutator after the later one changes that field, the value written by the later
one is the value present after the fold. -/
theorem listen_options_fold (addr : String) (opts : List OptionFunc) :
    baseOptions =
      { IsMaster := false, AdvertiseAddr := "", ClientAddr := "", RetryInterval := 0,
        Components := { names := [] } } ∧
    applyOptions opts baseOptions = List.foldl (fun o option => option o) baseOptions opts ∧
    resolveOptions addr opts =
      defaultRetryInterval
        (inferClientAddr addr (List.foldl (fun o option => option o) baseOptions opts)) ∧
    (∀ (pre post : List OptionFunc) (m : OptionFunc), opts = pre ++ m :: post →
      applyOptions opts baseOptions = applyOptions post (m (applyOptions pre baseOptions))) ∧
    (∀ (α : Type) (field : Options → α) (pre mid post : List OptionFunc)
        (earlier later : OptionFunc) (v w : α),
      opts = pre ++ earlier :: (mid ++ later :: post) →
      (∀ o, field (earlier o) = v) → (∀ o, field (later o) = w) →
      (∀ m ∈ post, ∀ o, field (m o) = field o) →
      field (applyOptions opts baseOptions) = w) := by
  refine ⟨rfl, applyOptions_eq_foldl opts baseOptions, ?_, ?_, ?_⟩
  · simp only [resolveOptions, applyOptions_eq_foldl]
  · intro pre post m h
    rw [h, applyOptions_append]
    rfl
  · intro α field pre mid post earlier later v w h _ hlater hpost
    have h2 : opts = (pre ++ earlier :: mid) ++ later :: post := by
      rw [h]; simp
    rw [h2]
    exact applyOptions_last_write field _ post later w hlater hpost baseOptions

/-- C3, amended, at an input: two client-address options around a master option,
followed by a retry option. -/
theorem listen_options_fold_witness :
    (applyOptions [setClientAddr "x", setIsMaster, setClientAddr "y", setRetryInterval 7]
      baseOptions).ClientAddr = "y" :=
  (listen_options_fold "a:1"
      [setClientAddr "x", setIsMaster, setClientAddr "y", setRetryInterval 7]).2.2.2.2
    String (fun o => o.ClientAddr) [] [setIsMaster] [setRetryInterval 7]
    (setClientAddr "x") (setClientAddr "y") "x" "y" rfl (fun _ => rfl) (fun _ => rfl)
    (by intro m hm o; simp at hm; subst hm; rfl)

end Quantum

namespace Quantum

/-! ## Interleaving: lemmas -/

theorem run_append (s : State) (evs1 evs2 : List Event) :
    run s (evs1 ++ evs2) = (run s evs1).bind (fun s1 => run s1 evs2) := by
  induction evs1 generalizing s with
  | nil => rfl
  | cons ev rest ih =>
    simp only [List.cons_append, run]
    cases step s ev with
    | none => rfl
    | some s1 => exact ih s1

theorem reachable_init : Reachable Quantum.init := ⟨[], rfl⟩

theorem reachable_step {s s1 : State} (ev : Event) (h : Reachable s)
    (hstep : Quantum.step s ev = some s1) : Reachable s1 := by
  obtain ⟨evs, hevs⟩ := h
  refine ⟨evs ++ [ev], ?_⟩
  rw [run_append, hevs]
  simp [run, hstep]

theorem reachable_run {s s1 : State} (evs : List Event) (h : Reachable s)
    (hrun : Quantum.run s evs = some s1) : Reachable s1 := by
  obtain ⟨evs0, hevs0⟩ := h
  refine ⟨evs0 ++ evs, ?_⟩
  rw [run_append, hevs0]
  exact hrun

/-- What a `Listen` event does when it does not end the process: either the
guard is found taken and only the counter and the log change, or the run gets
as far as the `select`. -/
theorem step_listen_cases (s s1 : State) (addr : String) (opts : List OptionFunc)
    (e : ListenEnv) (h : step s (Event.listen addr opts e) = some s1) :
    (wrapInt32 (s.running + 1) ≠ 1 ∧
      ListenEnter addr opts e s = (Outcome.returned, s1) ∧
      s1 = { s with running := wrapInt32 (s.running + 1), trace := s.trace ++ [rejectLine] }) ∨
    (wrapInt32 (s.running + 1) = 1 ∧
      ListenEnter addr opts e s = (Outcome.waiting, s1) ∧
      s1.running = 1 ∧ s1.runs = s.runs ++ [listenNode addr opts] ∧
      s1.currentNode = some (listenNode addr opts) ∧ s1.envDie = s.envDie) := by
  by_cases hn : wrapInt32 (s.running + 1) = 1
  · right
    cases hwd : e.getwd with
    | error err =>
      simp [step, ListenEnter, hn, hwd] at h
    | ok wd =>
      cases hst : e.startup with
      | some err =>
        simp [step, ListenEnter, hn, hwd, hst] at h
      | none =>
        rw [step, ListenEnter_started addr opts e s wd hn hwd hst] at h
        simp only [Option.some.injEq] at h
        rw [ListenEnter_started addr opts e s wd hn hwd hst, ← h]
        exact ⟨hn, rfl, rfl, rfl, rfl, rfl⟩
  · left
    rw [step, ListenEnter_rejected addr opts e s hn] at h
    simp only [Option.some.injEq] at h
    rw [ListenEnter_rejected addr opts e s hn, ← h]
    exact ⟨hn, rfl, rfl⟩

theorem ListenWake_some (s : State) (i : Nat) (r : Reason) (node : Node)
    (h : s.runs[i]? = some node) :
    ListenWake i r s =
      some { s with
        running := 0
        currentNode := none
        runs := s.runs.eraseIdx i
        trace := s.trace ++ reasonLine r :: teardownEffects node } := by
  simp [ListenWake, h]

theorem ListenWake_cases (s s1 : State) (i : Nat) (r : Reason)
    (h : ListenWake i r s = some s1) :
    ∃ node, s.runs[i]? = some node ∧
      s1 = { s with
        running := 0
        currentNode := none
        runs := s.runs.eraseIdx i
        trace := s.trace ++ reasonLine r :: teardownEffects node } := by
  cases hget : s.runs[i]? with
  | none => simp [ListenWake, hget] at h
  | some node =>
    rw [ListenWake_some s i r node hget] at h
    exact ⟨node, rfl, (Option.some.inj h).symm⟩

theorem step_wake_cases (s s1 : State) (i : Nat) (r : Reason)
    (h : step s (Event.wake i r) = some s1) : ListenWake i r s = some s1 := by
  cases r with
  | die =>
    by_cases hd : s.envDie = Chan.closed
    · simpa [step, hd] using h
    · simp [step, hd] at h
  | signal sg =>
    by_cases hk : sg = Signal.SIGKILL
    · simp [step, hk] at h
    · simpa [step, hk] using h

/-- A signal that ends the wait of a blocked run is not `SIGKILL`. -/
theorem step_wake_signal_ne_sigkill (s s1 : State) (i : Nat) (sg : Signal)
    (h : step s (Event.wake i (Reason.signal sg)) = some s1) : sg ≠ Signal.SIGKILL := by
  intro hk
  simp [step, hk] at h

/-- `SIGKILL` never ends the wait: the run does not get to its teardown. -/
theorem step_wake_sigkill (s : State) (i : Nat) :
    step s (Event.wake i (Reason.signal Signal.SIGKILL)) = none := by
  simp [step]

/-- Each of the signals that can be caught ends the wait of a blocked run. -/
theorem step_wake_signal_enabled (s : State) (i : Nat) (sg : Signal) (node : Node)
    (hk : sg ≠ Signal.SIGKILL) (h : s.runs[i]? = some node) :
    step s (Event.wake i (Reason.signal sg)) =
      some { s with
        running := 0
        currentNode := none
        runs := s.runs.eraseIdx i
        trace := s.trace ++ reasonLine (Reason.signal sg) :: teardownEffects node } := by
  simp only [step, if_neg hk]
  exact ListenWake_some s i (Reason.signal sg) node h

theorem Shutdown_active (s : State) (h : s.envDie = Chan.active) :
    Shutdown s =
      Except.ok { s with envDie := Chan.closed, trace := s.trace ++ [Effect.closeDie] } := by
  simp [Shutdown, chanClose, h]

theorem Shutdown_closed (s : State) (h : s.envDie = Chan.closed) :
    Shutdown s = Except.error (Abort.panicked "close of closed channel") := by
  simp [Shutdown, chanClose, h]

theorem step_shutdown_cases (s s1 : State) (h : step s Event.shutdown = some s1) :
    s.envDie = Chan.active ∧
      s1 = { s with envDie := Chan.closed, trace := s.trace ++ [Effect.closeDie] } := by
  cases hd : s.envDie with
  | active =>
    rw [step, Shutdown_active s hd] at h
    exact ⟨rfl, (Option.some.inj h).symm⟩
  | closed =>
    rw [step, Shutdown_closed s hd] at h
    simp at h

theorem wrapInt32_range (x : Int) : -2147483648 ≤ wrapInt32 x ∧ wrapInt32 x < 2147483648 := by
  unfold wrapInt32
  omega

theorem guardInv_step {s s1 : State} (ev : Event) (h : GuardInv s)
    (hstep : Quantum.step s ev = some s1) : GuardInv s1 := by
  obtain ⟨hlo, hhi, hidle⟩ := h
  cases ev with
  | listen addr opts e =>
    rcases step_listen_cases s s1 addr opts e hstep with ⟨hn, _, hs1⟩ | ⟨_, _, hr, hruns, _, _⟩
    · subst hs1
      refine ⟨(wrapInt32_range _).1, (wrapInt32_range _).2, ?_⟩
      intro hruns
      have h0 : s.running = 0 := hidle hruns
      exact absurd ((wrapInt32_succ_eq_one_iff s.running hlo hhi).2 h0) hn
    · refine ⟨by omega, by omega, ?_⟩
      intro hempty
      rw [hruns] at hempty
      simp at hempty
  | wake i r =>
    obtain ⟨node, _, hs1⟩ := ListenWake_cases s s1 i r (step_wake_cases s s1 i r hstep)
    subst hs1
    exact ⟨by simp, by simp, fun _ => rfl⟩
  | shutdown =>
    obtain ⟨_, hs1⟩ := step_shutdown_cases s s1 hstep
    subst hs1
    exact ⟨hlo, hhi, hidle⟩

theorem guardInv_run {s s1 : State} (evs : List Event) (h : GuardInv s)
    (hrun : Quantum.run s evs = some s1) : GuardInv s1 := by
  induction evs generalizing s with
  | nil =>
    simp only [Quantum.run, Option.some.injEq] at hrun
    exact hrun ▸ h
  | cons ev rest ih =>
    simp only [Quantum.run] at hrun
    cases hstep : Quantum.step s ev with
    | none => simp [hstep] at hrun
    | some s2 =>
      rw [hstep] at hrun
      exact ih (guardInv_step ev h hstep) hrun

theorem reachable_guardInv {s : State} (h : Reachable s) : GuardInv s := by
  obtain ⟨evs, hevs⟩ := h
  refine guardInv_run evs ?_ hevs
  exact ⟨by decide, by decide, fun _ => rfl⟩

end Quantum

namespace Quantum

/-! ## The guard counter -/

/-- C4 as stated fails: after one accepted and one rejected call of `Listen` the
counter holds 2. -/
theorem running_reaches_two :
    ¬ (∀ s : State, Reachable s → s.running = 0 ∨ s.running = 1) := by
  intro h
  have hr : ∃ s, run init [Event.listen "a:1" [] okEnv, Event.listen "b:2" [] okEnv] = some s ∧
      s.running = 2 := ⟨_, rfl, rfl⟩
  obtain ⟨s, hs, h2⟩ := hr
  have h01 := h s ⟨_, hs⟩
  omega

/-- C4, amended: in every reachable state the counter is 0 when no run is
active; a `Listen` entry that finds it at 0 is accepted and leaves it at 1; a
`Listen` entry that finds it at `c` with `0 < c < 2^31 - 1` is rejected and
leaves it at `c + 1`; teardown stores 0; `Shutdown` leaves it as it is. -/
theorem running_values (s : State) (h : Reachable s) :
    (s.runs = [] → s.running = 0) ∧
    (∀ addr opts e s1, step s (Event.listen addr opts e) = some s1 → s.running = 0 →
      s1.running = 1 ∧ s1.runs = s.runs ++ [listenNode addr opts]) ∧
    (∀ addr opts e s1, step s (Event.listen addr opts e) = some s1 →
      0 < s.running → s.running < 2147483647 →
      s1.running = s.running + 1 ∧ s1.runs = s.runs) ∧
    (∀ i r s1, step s (Event.wake i r) = some s1 → s1.running = 0) ∧
    (∀ s1, step s Event.shutdown = some s1 → s1.running = s.running) := by
  obtain ⟨hlo, hhi, hidle⟩ := reachable_guardInv h
  refine ⟨hidle, ?_, ?_, ?_, ?_⟩
  · intro addr opts e s1 hstep h0
    rcases step_listen_cases s s1 addr opts e hstep with ⟨hn, _, _⟩ | ⟨_, _, hr, hruns, _, _⟩
    · exact absurd ((wrapInt32_succ_eq_one_iff s.running hlo hhi).2 h0) hn
    · exact ⟨hr, hruns⟩
  · intro addr opts e s1 hstep hpos hmax
    rcases step_listen_cases s s1 addr opts e hstep with ⟨_, _, hs1⟩ | ⟨hn, _, _, _, _, _⟩
    · subst hs1
      refine ⟨?_, rfl⟩
      show wrapInt32 (s.running + 1) = s.running + 1
      unfold wrapInt32
      omega
    · have h0 := (wrapInt32_succ_eq_one_iff s.running hlo hhi).1 hn
      omega
  · intro i r s1 hstep
    obtain ⟨node, _, hs1⟩ := ListenWake_cases s s1 i r (step_wake_cases s s1 i r hstep)
    subst hs1
    rfl
  · intro s1 hstep
    obtain ⟨_, hs1⟩ := step_shutdown_cases s s1 hstep
    subst hs1
    rfl

/-- C4, amended, at an input: the state after one accepted call of `Listen`, in
which a second call is rejected and takes the counter from 1 to 2. -/
theorem running_values_witness :
    ∃ s s1 : State, Reachable s ∧ s.running = 1 ∧
      step s (Event.listen "b:2" [] okEnv) = some s1 ∧
      s1.running = s.running + 1 ∧ s1.runs = s.runs :=
  have hr : ∃ s, run init [Event.listen "a:1" [] okEnv] = some s ∧ s.running = 1 ∧
      ∃ s1, step s (Event.listen "b:2" [] okEnv) = some s1 := ⟨_, rfl, rfl, _, rfl⟩
  match hr with
  | ⟨s, hs, h1, s1, hs1⟩ =>
    ⟨s, s1, ⟨_, hs⟩, h1, hs1,
      (running_values s ⟨_, hs⟩).2.2.1 "b:2" [] okEnv s1 hs1 (by omega) (by omega)⟩

end Quantum

namespace Quantum

/-! ## Calls of `Listen` while a run is active -/

/-- A call of `Listen` that arrives after `j` rejected ones, with
`j + 1 < 2^32`, is rejected too: it returns after logging, and changes nothing
but the counter and the log. -/
theorem ListenEnter_rejected_after (addr : String) (opts : List OptionFunc) (e : ListenEnv)
    (s : State) (j : Nat) (hj : j + 1 < 4294967296) (hrun : s.running = wrapInt32 (1 + j)) :
    ListenEnter addr opts e s =
      (Outcome.returned,
        { s with running := wrapInt32 (1 + (j + 1 : Nat)), trace := s.trace ++ [rejectLine] }) := by
  have hn : wrapInt32 (s.running + 1) = wrapInt32 (1 + (j + 1 : Nat)) := by
    rw [hrun]
    unfold wrapInt32
    push_cast
    omega
  have hne : wrapInt32 (s.running + 1) ≠ 1 := by
    rw [hn]
    unfold wrapInt32
    push_cast
    omega
  rw [ListenEnter_rejected addr opts e s hne, hn]

/-- Calls of `Listen` made while the counter holds `1 + j`: as long as fewer
than `2^32` calls have been made since the guard was taken, every one of them
is rejected, and together they change only the counter and the log. -/
theorem run_listens_rejected (evs : List Event)
    (hev : ∀ ev ∈ evs, ∃ addr opts e, ev = Event.listen addr opts e)
    (s : State) (j : Nat) (hj : j + evs.length < 4294967296)
    (hrun : s.running = wrapInt32 (1 + j)) :
    run s evs = some
      { s with
        running := wrapInt32 (1 + (j + evs.length : Nat))
        trace := s.trace ++ List.replicate evs.length rejectLine } := by
  induction evs generalizing s j with
  | nil =>
    simp only [run, List.length_nil, Nat.add_zero, List.replicate_zero, List.append_nil]
    rw [← hrun]
  | cons ev rest ih =>
    obtain ⟨addr, opts, e, hev1⟩ := hev ev (List.mem_cons_self _ _)
    subst hev1
    have hlen : j + 1 + rest.length < 4294967296 := by
      simp only [List.length_cons] at hj
      omega
    have hstep : step s (Event.listen addr opts e) = some
        { s with running := wrapInt32 (1 + (j + 1 : Nat)), trace := s.trace ++ [rejectLine] } := by
      rw [step, ListenEnter_rejected_after addr opts e s j (by omega) hrun]
    have hih := ih (fun ev1 h1 => hev ev1 (List.mem_cons_of_mem _ h1))
      { s with running := wrapInt32 (1 + (j + 1 : Nat)), trace := s.trace ++ [rejectLine] }
      (j + 1) hlen (Eq.refl _)
    simp only [run, hstep]
    rw [hih]
    simp only [List.length_cons, List.replicate_succ, List.append_assoc, List.singleton_append]
    have h1 : j + 1 + rest.length = j + (rest.length + 1) := by omega
    rw [h1]

/-- After one accepted call of `Listen` and `k` further calls with
`k + 1 = 2^32`, all of which are rejected, the counter is back at 0 although the
first run is still blocked in `select`, and the next call of `Listen` gets past
the guard. -/
theorem listen_accepted_after (k : Nat) (hk : k + 1 = 4294967296) :
    ∃ s : State,
      run init (Event.listen "a:1" [] okEnv ::
        List.replicate k (Event.listen "b:2" [setIsMaster] okEnv)) = some s ∧
      s.runs = [listenNode "a:1" []] ∧
      s.currentNode = some (listenNode "a:1" []) ∧
      s.trace.count rejectLine = k ∧
      s.running = 0 ∧
      (ListenEnter "b:2" [setIsMaster] otherEnv s).1 =
        Outcome.waiting ∧
      (ListenEnter "b:2" [setIsMaster] otherEnv s).2.runs =
        [listenNode "a:1" [], listenNode "b:2" [setIsMaster]] ∧
      (ListenEnter "b:2" [setIsMaster] otherEnv s).2.currentNode =
        some (listenNode "b:2" [setIsMaster]) ∧
      (ListenEnter "b:2" [setIsMaster] otherEnv s).2.app ≠
        s.app ∧
      (ListenEnter "b:2" [setIsMaster] otherEnv s).2.trace =
        s.trace ++
          [Effect.nodeStartup (listenNode "b:2" [setIsMaster]),
           Effect.setCurrentNode (some (listenNode "b:2" [setIsMaster])),
           Effect.println [startupLine "other" (listenNode "b:2" [setIsMaster])],
           Effect.goSched,
           Effect.signalNotify monitored] := by
  have h1 : ∃ s1, step init (Event.listen "a:1" [] okEnv) = some s1 ∧ s1.running = 1 ∧
      s1.runs = [listenNode "a:1" []] ∧ s1.currentNode = some (listenNode "a:1" []) ∧
      s1.app = { name := "quantum", startAt := 1 } ∧
      s1.trace.count rejectLine = 0 :=
    ⟨_, rfl, rfl, rfl, rfl, rfl, by decide⟩
  obtain ⟨s1, hs1, hr1, hruns1, hcur1, happ1, hcount1⟩ := h1
  have h2 := run_listens_rejected
    (List.replicate k (Event.listen "b:2" [setIsMaster] okEnv))
    (fun ev hev => ⟨"b:2", [setIsMaster], okEnv, (List.mem_replicate.1 hev).2⟩)
    s1 0 (by rw [List.length_replicate]; omega) (by rw [hr1]; rfl)
  rw [List.length_replicate] at h2
  have hwrap : wrapInt32 (1 + ((0 + k : Nat) : Int)) = 0 := by
    unfold wrapInt32
    push_cast
    omega
  rw [hwrap] at h2
  have hacc := ListenEnter_started "b:2" [setIsMaster]
    otherEnv
    { s1 with running := 0, trace := s1.trace ++ List.replicate k rejectLine }
    "/srv" (Eq.refl (1 : Int)) rfl rfl
  have hs : singletonMode (applyOptions [setIsMaster] baseOptions) = false := by decide
  simp only [hs, Bool.false_eq_true, if_false, List.nil_append] at hacc
  refine ⟨{ s1 with running := 0, trace := s1.trace ++ List.replicate k rejectLine }, ?_, ?_⟩
  · simp only [run, hs1]
    exact h2
  · rw [hacc]
    refine ⟨hruns1, hcur1, ?_, rfl, rfl, ?_, rfl, ?_, rfl⟩
    · simp only [List.count_append, hcount1, List.count_replicate_self, Nat.zero_add]
    · simp only [hruns1, List.singleton_append]
    · simp only [happ1]
      decide

/-- C5, the failing input: one accepted call of `Listen` and then 4294967295
rejected ones leave a state with one active run and the counter back at 0, in
which one more call of `Listen` is not rejected: it starts a second node and
a second scheduler, and overwrites the application identity and the published
node. -/
theorem listen_accepted_after_wrap :
    ∃ s : State,
      run init (Event.listen "a:1" [] okEnv ::
        List.replicate 4294967295 (Event.listen "b:2" [setIsMaster] okEnv)) = some s ∧
      s.runs = [listenNode "a:1" []] ∧
      s.currentNode = some (listenNode "a:1" []) ∧
      s.trace.count rejectLine = 4294967295 ∧
      s.running = 0 ∧
      (ListenEnter "b:2" [setIsMaster] otherEnv s).1 =
        Outcome.waiting ∧
      (ListenEnter "b:2" [setIsMaster] otherEnv s).2.runs =
        [listenNode "a:1" [], listenNode "b:2" [setIsMaster]] ∧
      (ListenEnter "b:2" [setIsMaster] otherEnv s).2.currentNode =
        some (listenNode "b:2" [setIsMaster]) ∧
      (ListenEnter "b:2" [setIsMaster] otherEnv s).2.app ≠
        s.app ∧
      (ListenEnter "b:2" [setIsMaster] otherEnv s).2.trace =
        s.trace ++
          [Effect.nodeStartup (listenNode "b:2" [setIsMaster]),
           Effect.setCurrentNode (some (listenNode "b:2" [setIsMaster])),
           Effect.println [startupLine "other" (listenNode "b:2" [setIsMaster])],
           Effect.goSched,
           Effect.signalNotify monitored] :=
  listen_accepted_after 4294967295 (by norm_num)

end Quantum

namespace Quantum

/-! ## Teardown -/

/-- C6: when the `select` of a blocked run fires, on either case, the run logs
the reason and the stopping line and then performs exactly four effects, each
once, in this order and with nothing in between: `node.Shutdown()` on its own
node, `runtime.CurrentNode = nil`, `scheduler.Close()`, and the store of 0 into
the guard counter.  The node stop comes before the scheduler stop, and the
release of the guard is the last effect of the run. -/
theorem teardown_order (s : State) (i : Nat) (r : Reason) (node : Node)
    (h : s.runs[i]? = some node) :
    ∃ s1 : State, ListenWake i r s = some s1 ∧
      s1.trace = s.trace ++
        [reasonLine r,
         Effect.println [LogArg.str "Quantum server is stopping..."],
         Effect.nodeShutdown node,
         Effect.setCurrentNode none,
         Effect.schedulerClose,
         Effect.storeRunning 0] ∧
      (s1.trace.drop s.trace.length).filter (fun ef => !ef.isLog) =
        [Effect.nodeShutdown node, Effect.setCurrentNode none, Effect.schedulerClose,
         Effect.storeRunning 0] ∧
      s1.trace.getLast? = some (Effect.storeRunning 0) ∧
      s1.currentNode = none ∧ s1.running = 0 ∧ s1.runs = s.runs.eraseIdx i := by
  refine ⟨_, ListenWake_some s i r node h, rfl, ?_, ?_, rfl, rfl, rfl⟩
  · simp only [List.drop_left]
    cases r <;> rfl
  · simp [teardownEffects]

/-- C6, at an input: a run started from the initial state and woken by
`Shutdown`. -/
theorem teardown_order_witness :
    ∃ s s1 : State, (ListenEnter "a:1" [] okEnv init).2 = s ∧
      ListenWake 0 Reason.die s = some s1 ∧
      (s1.trace.drop s.trace.length).filter (fun ef => !ef.isLog) =
        [Effect.nodeShutdown (listenNode "a:1" []), Effect.setCurrentNode none,
         Effect.schedulerClose, Effect.storeRunning 0] :=
  match teardown_order (ListenEnter "a:1" [] okEnv init).2 0 Reason.die (listenNode "a:1" [])
      rfl with
  | ⟨s1, h1, _, h3, _⟩ => ⟨_, s1, rfl, h1, h3⟩

/-- C7: after a run has finished its teardown the guard counter is 0, whatever
number `k` of calls of `Listen` was rejected while the run was active, and the
next call of `Listen` takes the guard: it is not rejected, it sets the counter
to 1, and unless the working directory cannot be resolved it calls `Startup` on
the node built from its arguments, which, when `Startup` succeeds, becomes the
published node of a new blocked run. -/
theorem listen_after_full_run (k : Nat) (s s1 : State) (i : Nat) (r : Reason)
    (_hk : s.running = wrapInt32 (1 + k)) (h : step s (Event.wake i r) = some s1) :
    s1.running = 0 ∧
    ∀ (addr : String) (opts : List OptionFunc) (e : ListenEnv),
      (ListenEnter addr opts e s1).1 ≠ Outcome.returned ∧
      (ListenEnter addr opts e s1).2.running = 1 ∧
      (∀ wd, e.getwd = Except.ok wd →
        Effect.nodeStartup (listenNode addr opts) ∈ (ListenEnter addr opts e s1).2.trace ∧
        (e.startup = none →
          (ListenEnter addr opts e s1).1 = Outcome.waiting ∧
          (ListenEnter addr opts e s1).2.runs = s1.runs ++ [listenNode addr opts] ∧
          (ListenEnter addr opts e s1).2.currentNode = some (listenNode addr opts) ∧
          step s1 (Event.listen addr opts e) = some (ListenEnter addr opts e s1).2)) := by
  obtain ⟨node, _, hs1⟩ := ListenWake_cases s s1 i r (step_wake_cases s s1 i r h)
  have h0 : s1.running = 0 := by rw [hs1]
  have h1 : wrapInt32 (s1.running + 1) = 1 := by rw [h0]; rfl
  refine ⟨h0, fun addr opts e => ⟨?_, ?_, ?_⟩⟩
  · cases hwd : e.getwd with
    | error err => simp [ListenEnter, h1, hwd]
    | ok wd =>
      cases hst : e.startup with
      | some err => simp [ListenEnter, h1, hwd, hst]
      | none => simp [ListenEnter_started addr opts e s1 wd h1 hwd hst]
  · cases hwd : e.getwd with
    | error err => simp [ListenEnter, h1, hwd]
    | ok wd =>
      cases hst : e.startup with
      | some err =>
        simp only [ListenEnter, h1, hwd, hst]
        by_cases hs : singletonMode (applyOptions opts baseOptions) = true
        · simp [hs]
        · simp [hs]
      | none => simp [ListenEnter_started addr opts e s1 wd h1 hwd hst]
  · intro wd hwd
    refine ⟨(listen_startup_mem addr opts e s1 wd h1 hwd), ?_⟩
    intro hst
    rw [step, ListenEnter_started addr opts e s1 wd h1 hwd hst]
    exact ⟨rfl, rfl, rfl, rfl⟩

/-- C7, at an input: a run during which three calls of `Listen` were rejected is
woken by a signal; the next call of `Listen` blocks in `select` with its own
node. -/
theorem listen_after_full_run_witness :
    ∃ s s1 : State,
      run init [Event.listen "a:1" [] okEnv, Event.listen "b:2" [] okEnv,
        Event.listen "b:2" [] okEnv, Event.listen "b:2" [] okEnv] = some s ∧
      s.running = 4 ∧
      step s (Event.wake 0 (Reason.signal Signal.SIGTERM)) = some s1 ∧
      s1.running = 0 ∧
      (ListenEnter "c:3" [] otherEnv s1).1 = Outcome.waiting :=
  have hr : ∃ s s1 : State,
      run init [Event.listen "a:1" [] okEnv, Event.listen "b:2" [] okEnv,
        Event.listen "b:2" [] okEnv, Event.listen "b:2" [] okEnv] = some s ∧
      s.running = 4 ∧
      step s (Event.wake 0 (Reason.signal Signal.SIGTERM)) = some s1 := ⟨_, _, rfl, rfl, rfl⟩
  match hr with
  | ⟨s, s1, hs, h4, hs1⟩ =>
    have h := listen_after_full_run 3 s s1 0 (Reason.signal Signal.SIGTERM)
      (by rw [h4]; decide) hs1
    ⟨s, s1, hs, h4, hs1, h.1, ((h.2 "c:3" [] otherEnv).2.2 "/srv" rfl).2 rfl |>.1⟩

end Quantum

namespace Quantum

/-! ## The two shutdown triggers -/

/-- C8: for every state with a blocked run whose wait is ended by a signal, the
teardown so produced and the teardown produced when the wait is ended by
`env.Die` are the same: the same effects on the same node, in the same order,
and the same resulting state (guard counter 0, published node `nil`, the run
gone, everything else as before), the line logged by the case of the `select`
being the only difference.  The `env.Die` case can fire in that state when
`env.Die` is already closed, and otherwise after `Shutdown` has closed it, which
adds the close itself and nothing else. -/
theorem signal_teardown_eq_shutdown_teardown (s a : State) (i : Nat) (sg : Signal) (node : Node)
    (h : s.runs[i]? = some node)
    (hsig : step s (Event.wake i (Reason.signal sg)) = some a) :
    ∃ b : State,
      ListenWake i Reason.die s = some b ∧
      a.trace = s.trace ++ reasonLine (Reason.signal sg) :: teardownEffects node ∧
      b.trace = s.trace ++ reasonLine Reason.die :: teardownEffects node ∧
      Effect.nodeShutdown node ∈ teardownEffects node ∧
      Effect.schedulerClose ∈ teardownEffects node ∧
      a.running = 0 ∧ a.currentNode = none ∧ a.runs = s.runs.eraseIdx i ∧
      { a with trace := [] } = { b with trace := [] } ∧
      (s.envDie = Chan.closed → step s (Event.wake i Reason.die) = some b) ∧
      (s.envDie = Chan.active →
        ∃ s1 : State, step s Event.shutdown = some s1 ∧
          step s1 (Event.wake i Reason.die) =
            some { b with
              envDie := Chan.closed
              trace := s1.trace ++ reasonLine Reason.die :: teardownEffects node }) := by
  have ha := step_wake_cases s a i (Reason.signal sg) hsig
  rw [ListenWake_some s i (Reason.signal sg) node h] at ha
  have ha := (Option.some.inj ha).symm
  subst ha
  refine ⟨_, ListenWake_some s i Reason.die node h, rfl, rfl, ?_, ?_, rfl, rfl, rfl, rfl, ?_, ?_⟩
  · simp [teardownEffects]
  · simp [teardownEffects]
  · intro hd
    have hw := ListenWake_some s i Reason.die node h
    simp only [step, if_pos hd]
    exact hw
  · intro hd
    refine ⟨{ s with envDie := Chan.closed, trace := s.trace ++ [Effect.closeDie] }, ?_, ?_⟩
    · rw [step, Shutdown_active s hd]
    · simp only [step, if_true]
      exact ListenWake_some _ i Reason.die node h

/-- C8, at an input: the run started from the initial state, woken by `SIGINT`
and woken by `Shutdown`. -/
theorem signal_teardown_eq_shutdown_teardown_witness :
    ∃ a b : State,
      step (ListenEnter "a:1" [] okEnv init).2 (Event.wake 0 (Reason.signal Signal.SIGINT)) =
        some a ∧
      ListenWake 0 Reason.die (ListenEnter "a:1" [] okEnv init).2 = some b ∧
      { a with trace := [] } = { b with trace := [] } ∧
      a.trace.drop ((ListenEnter "a:1" [] okEnv init).2.trace.length + 1) =
        teardownEffects (listenNode "a:1" []) ∧
      b.trace.drop ((ListenEnter "a:1" [] okEnv init).2.trace.length + 1) =
        teardownEffects (listenNode "a:1" []) :=
  have hstep : ∃ a : State,
      step (ListenEnter "a:1" [] okEnv init).2 (Event.wake 0 (Reason.signal Signal.SIGINT)) =
        some a := ⟨_, rfl⟩
  match hstep with
  | ⟨a, ha⟩ =>
    match signal_teardown_eq_shutdown_teardown (ListenEnter "a:1" [] okEnv init).2 a 0
        Signal.SIGINT (listenNode "a:1" []) rfl ha with
    | ⟨b, h1, h2, h3, _, _, _, _, _, h9, _, _⟩ =>
      ⟨a, b, ha, h1, h9, by rw [h2]; rfl, by rw [h3]; rfl⟩

/-! ## `Shutdown` -/

/-- C9 as stated fails: in the initial state, where no run is active, `Shutdown`
changes the state, by closing `env.Die`; a call of `Listen` made afterwards does
not stay blocked, its `select` can fire on `env.Die` at once; and in the idle
state so reached a further `Shutdown` faults. -/
theorem idle_shutdown_closes_die :
    init.runs = [] ∧
    Shutdown init ≠ Except.ok init ∧
    (∃ s1 : State, Shutdown init = Except.ok s1 ∧ s1.runs = [] ∧ s1.envDie = Chan.closed ∧
      Shutdown s1 = Except.error (Abort.panicked "close of closed channel") ∧
      (step (ListenEnter "a:1" [] okEnv s1).2 (Event.wake 0 Reason.die)).isSome = true) := by
  refine ⟨rfl, ?_, { init with envDie := Chan.closed, trace := [Effect.closeDie] },
    rfl, rfl, rfl, rfl, rfl⟩
  intro h
  rw [Shutdown_active init rfl] at h
  have h1 := congrArg State.envDie (Except.ok.inj h)
  exact absurd h1 (by decide)

/-- C9, amended: in a state in which no run is active and `env.Die` has not been
closed, `Shutdown` does not fault and changes nothing but `env.Die`, which it
closes, and the trace, which records the close; the trigger therefore stays
fired, and the `select` of a run started later can fire on `env.Die` without any
further `Shutdown`. -/
theorem shutdown_idle (s : State) (hidle : s.runs = []) (hdie : s.envDie = Chan.active) :
    Shutdown s =
      Except.ok { s with envDie := Chan.closed, trace := s.trace ++ [Effect.closeDie] } ∧
    ∀ (s1 s2 : State) (addr : String) (opts : List OptionFunc) (e : ListenEnv),
      Shutdown s = Except.ok s1 →
      ListenEnter addr opts e s1 = (Outcome.waiting, s2) →
      ∃ s3 : State, step s2 (Event.wake 0 Reason.die) = some s3 ∧ s3.runs = [] := by
  refine ⟨Shutdown_active s hdie, ?_⟩
  intro s1 s2 addr opts e hs1 hs2
  rw [Shutdown_active s hdie] at hs1
  have hs1 := (Except.ok.inj hs1).symm
  have hstep : step s1 (Event.listen addr opts e) = some s2 := by
    rw [step, hs2]
  rcases step_listen_cases s1 s2 addr opts e hstep with ⟨_, hret, _⟩ | ⟨_, _, _, hruns, _, hd⟩
  · rw [hs2] at hret
    exact absurd (Prod.mk.inj hret).1 (by decide)
  · have hruns2 : s2.runs = [listenNode addr opts] := by
      rw [hruns, hs1]
      simp [hidle]
    have hd2 : s2.envDie = Chan.closed := by rw [hd, hs1]
    have hget : s2.runs[0]? = some (listenNode addr opts) := by rw [hruns2]; rfl
    refine ⟨{ s2 with
        running := 0
        currentNode := none
        runs := s2.runs.eraseIdx 0
        trace := s2.trace ++ reasonLine Reason.die :: teardownEffects (listenNode addr opts) },
      ?_, ?_⟩
    · have hw := ListenWake_some s2 0 Reason.die _ hget
      simp only [step, hd2, if_true]
      rw [hw, hd2]
    · show s2.runs.eraseIdx 0 = []
      rw [hruns2]
      rfl

/-- C9, amended, at an input: `Shutdown` in the initial state. -/
theorem shutdown_idle_witness :
    Shutdown init =
      Except.ok { init with envDie := Chan.closed, trace := [Effect.closeDie] } :=
  (shutdown_idle init rfl rfl).1

/-- C10: a call of `Shutdown` that finds `env.Die` not yet closed closes it
without fault, and a second call of `Shutdown` is not an idempotent no-op: it
finds `env.Die` closed and faults with the panic of a double close, as does
every call of `Shutdown` that finds `env.Die` closed. -/
theorem shutdown_once (s : State) :
    (s.envDie = Chan.active →
      ∃ s1 : State, Shutdown s = Except.ok s1 ∧ s1.envDie = Chan.closed ∧
        s1.trace = s.trace ++ [Effect.closeDie] ∧
        Shutdown s1 = Except.error (Abort.panicked "close of closed channel") ∧
        step s1 Event.shutdown = none) ∧
    (s.envDie = Chan.closed →
      Shutdown s = Except.error (Abort.panicked "close of closed channel")) := by
  refine ⟨fun h => ⟨_, Shutdown_active s h, rfl, rfl, ?_, ?_⟩, Shutdown_closed s⟩
  · exact Shutdown_closed _ rfl
  · rw [step, Shutdown_closed _ rfl]

/-- C10, at an input: two calls of `Shutdown` while the run started from the
initial state is blocked. -/
theorem shutdown_once_witness :
    ∃ s1 : State, Shutdown (ListenEnter "a:1" [] okEnv init).2 = Except.ok s1 ∧
      Shutdown s1 = Except.error (Abort.panicked "close of closed channel") :=
  match (shutdown_once (ListenEnter "a:1" [] okEnv init).2).1 rfl with
  | ⟨s1, h1, _, _, h4, _⟩ => ⟨s1, h1, h4⟩

end Quantum
